import Mathlib

/-!
Verification of the scrum-game-server workflow core: a shallow embedding of
the dice-roll resolution engine, the WIP-limited board store, the validation
service, the metrics derivation and the roll orchestration, together with
theorems settling the specification claims about them.
-/

set_option autoImplicit false

namespace ScrumGame

/-- The eight fixed pipeline stages, in workflow order (types/game.ts). -/
inductive BoardColumn where
  | Funnel
  | ProductBacklog
  | SprintBacklog
  | Implementation
  | Integration
  | Testing
  | PreDeployment
  | Production
deriving DecidableEq, Repr, Fintype

/-- The four sprint phases, in order (types/game.ts). -/
inductive GamePhase where
  | SprintPlanning
  | Execution
  | SprintReview
  | Retrospective
deriving DecidableEq, Repr, Fintype

open BoardColumn GamePhase

/-- BOARD_COLUMNS: the ordered list of stages, as in types/game.ts and as
rebuilt locally inside DiceService. -/
def columnsList : List BoardColumn :=
  [Funnel, ProductBacklog, SprintBacklog, Implementation,
   Integration, Testing, PreDeployment, Production]

/-- A work-item card (interface Card in types/game.ts); cycleTime is null
until the card first reaches Production, embedded as Option Nat. -/
structure Card where
  id : String
  title : String
  effort : Nat
  status : BoardColumn
  createdTurn : Nat
  revertCount : Nat
  currentColumn : BoardColumn
  isTechnicalDebt : Bool
  cycleTime : Option Nat
deriving DecidableEq, Repr

/-- The Scrum-Master mitigation pool (interface ScrumMasterState). -/
structure ScrumMasterState where
  tokensAvailable : Nat
  tokensTotal : Nat
  tokensUsed : Nat
  technicalDebtActive : Bool
  technicalDebtExpiresAtTurn : Nat
deriving DecidableEq, Repr

/-- A card movement record inside a roll result (interface CardMovement);
the source fields from/to are rendered fromColumn/toColumn. -/
structure CardMovement where
  fromColumn : BoardColumn
  toColumn : BoardColumn
  effortApplied : Nat
  causesRevert : Bool
deriving DecidableEq, Repr

/-- The outcome of resolving one die value (interface D6RollResult). -/
structure D6RollResult where
  rollValue : Nat
  destinationColumn : BoardColumn
  cardMovement : CardMovement
  effectDescription : String
  canMitigation : Bool
deriving DecidableEq, Repr

/-- DiceService.getNextColumn: the adjacent later stage, staying put at the
end of the list (dice.service.ts lines 56-74). -/
def getNextColumn (column : BoardColumn) : BoardColumn :=
  let currentIndex := columnsList.indexOf column
  if currentIndex = columnsList.length - 1 then column
  else columnsList.getD (currentIndex + 1) column

/-- DiceService.getPreviousColumn: the adjacent earlier stage, staying put at
the start of the list (dice.service.ts lines 79-97). -/
def getPreviousColumn (column : BoardColumn) : BoardColumn :=
  let currentIndex := columnsList.indexOf column
  if currentIndex = 0 then column
  else columnsList.getD (currentIndex - 1) column

/-- DiceService.handleCriticalSuccess (roll = 1): direct jump to Production. -/
def handleCriticalSuccess (card : Card) (currentColumn : BoardColumn) : D6RollResult :=
  { rollValue := 1
    destinationColumn := Production
    cardMovement :=
      { fromColumn := currentColumn, toColumn := Production
        effortApplied := card.effort, causesRevert := false }
    effectDescription := "Expedited Deployment! Card bypasses all remaining stages."
    canMitigation := false }

/-- DiceService.handleStandardProgress (roll = 2 or 3): move to the next
column in the workflow (dice.service.ts lines 128-145). -/
def handleStandardProgress (card : Card) (currentColumn : BoardColumn) (roll : Nat) : D6RollResult :=
  let nextColumn := getNextColumn currentColumn
  { rollValue := roll
    destinationColumn := nextColumn
    cardMovement :=
      { fromColumn := currentColumn, toColumn := nextColumn
        effortApplied := card.effort, causesRevert := false }
    effectDescription := "Low friction. Card progresses to next stage."
    canMitigation := false }

/-- DiceService.handleScopeCreep (roll = 4): revert to ProductBacklog. -/
def handleScopeCreep (card : Card) (currentColumn : BoardColumn) : D6RollResult :=
  { rollValue := 4
    destinationColumn := ProductBacklog
    cardMovement :=
      { fromColumn := currentColumn, toColumn := ProductBacklog
        effortApplied := 0, causesRevert := true }
    effectDescription := "Scope Creep detected! Card reverts to Product Backlog for re-sizing."
    canMitigation := false }

/-- DiceService.handleTechnicalImpediment (roll = 5): revert to the previous
column when a Scrum-Master token is available, otherwise to the fixed
fallback Implementation (dice.service.ts lines 172-196). -/
def handleTechnicalImpediment (card : Card) (currentColumn : BoardColumn)
    (scrumMasterState : ScrumMasterState) : D6RollResult :=
  let canUseMitigation : Bool := decide (0 < scrumMasterState.tokensAvailable)
  let targetColumn := if canUseMitigation then getPreviousColumn currentColumn else Implementation
  { rollValue := 5
    destinationColumn := targetColumn
    cardMovement :=
      { fromColumn := currentColumn, toColumn := targetColumn
        effortApplied := 0, causesRevert := true }
    effectDescription := "Technical Impediment/Dependency blocked work. Revert for unblocking."
    canMitigation := canUseMitigation }

/-- DiceService.handleCriticalFailure (roll = 6): revert to Implementation
when the technical-debt bonus test passes, otherwise to SprintBacklog; the
source tests technicalDebtExpiresAtTurn greater than zero and carries a TODO
comment admitting the missing comparison with the current turn
(dice.service.ts lines 202-231). -/
def handleCriticalFailure (card : Card) (currentColumn : BoardColumn)
    (scrumMasterState : ScrumMasterState) : D6RollResult :=
  let tdBonus : Bool :=
    scrumMasterState.technicalDebtActive &&
      decide (0 < scrumMasterState.technicalDebtExpiresAtTurn)
  let targetColumn := if tdBonus then Implementation else SprintBacklog
  { rollValue := 6
    destinationColumn := targetColumn
    cardMovement :=
      { fromColumn := currentColumn, toColumn := targetColumn
        effortApplied := 0, causesRevert := true }
    effectDescription :=
      if tdBonus then "Critical Failure mitigated by Technical Debt! Revert to Implementation."
      else "Critical Failure! Severe setback requiring re-estimation."
    canMitigation := false }

/-- DiceService.rollD6 with the uniform draw factored out: the deterministic
resolution of one die value; values outside 1-6 throw in the source,
embedded as none (dice.service.ts lines 25-44). -/
def resolveRoll (roll : Nat) (card : Card) (currentColumn : BoardColumn)
    (scrumMasterState : ScrumMasterState) : Option D6RollResult :=
  match roll with
  | 1 => some (handleCriticalSuccess card currentColumn)
  | 2 => some (handleStandardProgress card currentColumn 2)
  | 3 => some (handleStandardProgress card currentColumn 3)
  | 4 => some (handleScopeCreep card currentColumn)
  | 5 => some (handleTechnicalImpediment card currentColumn scrumMasterState)
  | 6 => some (handleCriticalFailure card currentColumn scrumMasterState)
  | _ => none

/-- One stage of the board in the WIP-limited store: active slots, overflow
queue and the stage's WIP limit (game-state.store.ts, slots/queue revision). -/
structure ColumnState where
  slots : List Card
  queue : List Card
  wipLimit : Nat
deriving DecidableEq, Repr

/-- The per-session state held by GameStateStore that the verified store
operations read and write: the board columns, turn, phase, Scrum-Master pool
and the active flag of the session record. -/
structure StoreSession where
  columns : BoardColumn → ColumnState
  currentTurn : Nat
  currentPhase : GamePhase
  scrumMasterState : ScrumMasterState
  isActive : Bool

/-- The WIP limits installed by GameStateStore.createGame (999 standing for
the unlimited intake and completed-work stages). -/
def initialWipLimit : BoardColumn → Nat
  | Funnel => 999
  | ProductBacklog => 1
  | SprintBacklog => 3
  | Implementation => 3
  | Integration => 1
  | Testing => 2
  | PreDeployment => 6
  | Production => 999

/-- GameStateStore.createGame: a fresh session with empty columns, turn 1,
phase SprintPlanning, the default Scrum-Master pool and isActive true. -/
def createGame : StoreSession :=
  { columns := fun c => { slots := [], queue := [], wipLimit := initialWipLimit c }
    currentTurn := 1
    currentPhase := SprintPlanning
    scrumMasterState :=
      { tokensAvailable := 3, tokensTotal := 3, tokensUsed := 0
        technicalDebtActive := false, technicalDebtExpiresAtTurn := 0 }
    isActive := true }

/-- GameStateStore.addCard: push into slots when below the WIP limit, else
append to the queue (game-state.store.ts lines 346-359). -/
def storeAddCard (s : StoreSession) (column : BoardColumn) (card : Card) : StoreSession :=
  let columnState := s.columns column
  let updated :=
    if columnState.slots.length < columnState.wipLimit then
      { columnState with slots := columnState.slots ++ [card] }
    else
      { columnState with queue := columnState.queue ++ [card] }
  { s with columns := Function.update s.columns column updated }

/-- Splice of the first card with the given id out of a list, returning the
removed card and the remaining list (findIndex followed by splice). -/
def extractFirst (cards : List Card) (cardId : String) : Option (Card × List Card) :=
  match cards with
  | [] => none
  | c :: rest =>
    if c.id == cardId then some (c, rest)
    else
      match extractFirst rest cardId with
      | none => none
      | some (found, remaining) => some (found, c :: remaining)

/-- Placement into a destination column: push into slots when below the WIP
limit, else append to the queue (the destination half of
GameStateStore.moveCard, read after the source splice). -/
def placeCard (cols : BoardColumn → ColumnState) (toColumn : BoardColumn) (card : Card) :
    BoardColumn → ColumnState :=
  let toColumnState := cols toColumn
  if toColumnState.slots.length < toColumnState.wipLimit then
    Function.update cols toColumn { toColumnState with slots := toColumnState.slots ++ [card] }
  else
    Function.update cols toColumn { toColumnState with queue := toColumnState.queue ++ [card] }

/-- GameStateStore.moveCard: splice the card out of the source column's slots,
falling back to its queue, then place it into the destination; false when the
card is in neither (game-state.store.ts lines 364-403). -/
def storeMoveCard (s : StoreSession) (cardId : String) (fromColumn toColumn : BoardColumn) :
    Bool × StoreSession :=
  let fromColumnState := s.columns fromColumn
  match extractFirst fromColumnState.slots cardId with
  | some (card, restSlots) =>
    let card := { card with currentColumn := toColumn, status := toColumn }
    let cols := Function.update s.columns fromColumn { fromColumnState with slots := restSlots }
    (true, { s with columns := placeCard cols toColumn card })
  | none =>
    match extractFirst fromColumnState.queue cardId with
    | some (card, restQueue) =>
      let card := { card with currentColumn := toColumn, status := toColumn }
      let cols := Function.update s.columns fromColumn { fromColumnState with queue := restQueue }
      (true, { s with columns := placeCard cols toColumn card })
    | none => (false, s)

/-- The column scan of GameStateStore.removeCard: walk the columns in board
order, splice the card out of the first slots list holding it, else the first
queue holding it; none when no column holds it. -/
def removeCardScan (cols : BoardColumn → ColumnState) (cardId : String) :
    List BoardColumn → Option (BoardColumn → ColumnState)
  | [] => none
  | c :: rest =>
    let columnState := cols c
    match extractFirst columnState.slots cardId with
    | some (_, restSlots) =>
      some (Function.update cols c { columnState with slots := restSlots })
    | none =>
      match extractFirst columnState.queue cardId with
      | some (_, restQueue) =>
        some (Function.update cols c { columnState with queue := restQueue })
      | none => removeCardScan cols cardId rest

/-- GameStateStore.removeCard: remove the card from whichever slots or queue
holds it, scanning columns in board order; no queue promotion happens
(game-state.store.ts lines 408-430). -/
def storeRemoveCard (s : StoreSession) (cardId : String) : Bool × StoreSession :=
  match removeCardScan s.columns cardId columnsList with
  | some cols => (true, { s with columns := cols })
  | none => (false, s)

/-- GameStateStore.advancePhase: step one phase forward along the fixed phase
list, returning false and leaving the state alone at the last phase
(game-state.store.ts lines 473-486). -/
def storeAdvancePhase (s : StoreSession) : Bool × StoreSession :=
  let phases : List GamePhase := [SprintPlanning, Execution, SprintReview, Retrospective]
  let currentIndex := phases.indexOf s.currentPhase
  if currentIndex < phases.length - 1 then
    (true, { s with currentPhase := phases.getD (currentIndex + 1) s.currentPhase })
  else
    (false, s)

/-- GameStateStore.advanceTurn: increment the turn counter unconditionally. -/
def storeAdvanceTurn (s : StoreSession) : Bool × StoreSession :=
  (true, { s with currentTurn := s.currentTurn + 1 })

/-- GameStateStore.updateScrumMasterState: overwrite the pool with the merged
update (the partial-update merge embedded as the merged record). -/
def storeUpdateScrumMasterState (s : StoreSession) (merged : ScrumMasterState) :
    Bool × StoreSession :=
  (true, { s with scrumMasterState := merged })

/-- GameStateStore.endGame: mark the session record inactive; nothing else of
the game state changes (game-state.store.ts lines 498-505). -/
def storeEndGame (s : StoreSession) : Bool × StoreSession :=
  (true, { s with isActive := false })

/-- One store mutation, for reasoning about arbitrary operation sequences. -/
inductive StoreOp where
  | add (column : BoardColumn) (card : Card)
  | move (cardId : String) (fromColumn toColumn : BoardColumn)
  | remove (cardId : String)

/-- Apply one store mutation to a session. -/
def applyOp (s : StoreSession) : StoreOp → StoreSession
  | .add column card => storeAddCard s column card
  | .move cardId fromColumn toColumn => (storeMoveCard s cardId fromColumn toColumn).2
  | .remove cardId => (storeRemoveCard s cardId).2

/-- Apply a sequence of store mutations from left to right. -/
def runOps (s : StoreSession) (ops : List StoreOp) : StoreSession :=
  ops.foldl applyOp s

/-- The game state as the validation, metrics and orchestration services read
it (BoardState in types/game.ts): one flat card list per column, the turn
counter, the phase and the Scrum-Master pool. -/
structure GameStateV1 where
  columns : BoardColumn → List Card
  currentTurn : Nat
  currentPhase : GamePhase
  scrumMasterState : ScrumMasterState

/-- ValidationService.COLUMN_CAPACITIES: effort-point limits per column, with
none standing for the source's Infinity (validation.service.ts lines 20-29). -/
def COLUMN_CAPACITIES : BoardColumn → Option Nat
  | Funnel => none
  | ProductBacklog => none
  | SprintBacklog => some 20
  | Implementation => some 13
  | Integration => some 8
  | Testing => some 8
  | PreDeployment => some 5
  | Production => none

/-- The reduce over a column's cards summing their effort, as written in
validation.service.ts and metrics.service.ts. -/
def columnEffort (cards : List Card) : Nat :=
  cards.foldl (fun sum c => sum + c.effort) 0

/-- ValidationService.checkColumnCapacity: unlimited columns always pass;
limited columns pass unless current effort plus the card's effort exceeds the
limit (validation.service.ts lines 65-88). -/
def checkColumnCapacity (column : BoardColumn) (card : Card) (g : GameStateV1) : Bool :=
  match COLUMN_CAPACITIES column with
  | none => true
  | some maxCapacity =>
    let currentCapacity := columnEffort (g.columns column)
    let newCapacity := currentCapacity + card.effort
    if maxCapacity < newCapacity then false else true

/-- MetricsService.calculateVelocityPerTurn: for each turn from 1 to the
current turn, the summed effort of the cards in the Production column whose
cycleTime equals that turn (metrics.service.ts lines 346-361). -/
def calculateVelocityPerTurn (g : GameStateV1) : List Nat :=
  (List.range g.currentTurn).map fun i =>
    columnEffort ((g.columns Production).filter fun card => card.cycleTime == some (i + 1))

/-- Velocity entry for one turn as the specification words it: the sum of
effort over all cards anywhere in the session whose cycleTime equals the
turn. Stated only to compare against the source implementation, which scans
the Production column alone. -/
def specVelocityEntry (g : GameStateV1) (turn : Nat) : Nat :=
  (((columnsList.map g.columns).flatten.filter fun card => card.cycleTime == some turn).map
    fun card => card.effort).sum

/-- Occupied effort of a column as the specification words it: the sum of the
efforts of the cards it holds. -/
def specOccupiedEffort (cards : List Card) : Nat :=
  (cards.map fun card => card.effort).sum

/-- The technical-debt bonus activity as the specification words it: the flag
is set and the expiry turn has not yet passed at the current turn (the expiry
turn is set to currentTurn + 2 when debt is allocated). Stated only to
compare against the source test, which never consults the current turn. -/
def specTechnicalDebtCurrentlyActive (pool : ScrumMasterState) (currentTurn : Nat) : Bool :=
  pool.technicalDebtActive && decide (currentTurn ≤ pool.technicalDebtExpiresAtTurn)

/-- The helper findCardById of game.service.ts: scan the columns in board
order and return the first card with the given id. -/
def findCardById (cardId : String) (g : GameStateV1) : Option Card :=
  ((columnsList.map g.columns).flatten).find? fun c => c.id == cardId

/-- ValidationService.validateCardExists reduced to its isValid bit: some
column holds a card with the given id (validation.service.ts lines 192-209). -/
def validateCardExists (cardId : String) (g : GameStateV1) : Bool :=
  columnsList.any fun column => (g.columns column).any fun c => c.id == cardId

/-- The movement result of BoardService.moveCard (board.service.ts). -/
structure CardMovementResult where
  success : Bool
  card : Card
  fromColumn : BoardColumn
  toColumn : BoardColumn
  tokensUsed : Nat
  technicalDebtActivated : Bool
deriving Repr

/-- BoardService.applyMovement: update the card's column and status, stamp a
placeholder cycle time on first arrival in Production, and bump the revert
count on a reverting outcome (board.service.ts lines 139-158). -/
def applyMovement (card : Card) (toColumn : BoardColumn) (rollResult : D6RollResult) : Card :=
  let updatedCard := { card with currentColumn := toColumn, status := toColumn }
  let updatedCard :=
    if toColumn = Production ∧ card.cycleTime = none then
      { updatedCard with cycleTime := some 1 }
    else updatedCard
  if rollResult.cardMovement.causesRevert then
    { updatedCard with revertCount := updatedCard.revertCount + 1 }
  else updatedCard

/-- BoardService.moveCard: the movement validation and the capacity check both
answer true in the source, so the call always succeeds with zero tokens used
and no technical debt activated (board.service.ts lines 37-81). -/
def boardServiceMoveCard (card : Card) (fromColumn toColumn : BoardColumn)
    (rollResult : D6RollResult) : CardMovementResult :=
  { success := true
    card := applyMovement card toColumn rollResult
    fromColumn := fromColumn
    toColumn := toColumn
    tokensUsed := 0
    technicalDebtActivated := false }

/-- GameStateStore.moveCard as the flat-column game state sees it: splice the
card out of the source column, restamp its column and status, and push it
onto the destination column; none when the source column does not hold it. -/
def storeV1MoveCard (g : GameStateV1) (cardId : String) (fromColumn toColumn : BoardColumn) :
    Option GameStateV1 :=
  match extractFirst (g.columns fromColumn) cardId with
  | none => none
  | some (card, rest) =>
    let card := { card with currentColumn := toColumn, status := toColumn }
    let cols := Function.update g.columns fromColumn rest
    let cols := Function.update cols toColumn (cols toColumn ++ [card])
    some { g with columns := cols }

/-- gameService.rollD6 with the die draw factored out: find the card, check
it exists, resolve the roll, apply the board-service movement, apply the
store movement, then conditionally spend tokens and activate technical debt
exactly when the movement result reports them (game.service.ts lines
155-238); none on any failure. -/
def gameServiceRollD6 (roll : Nat) (g : GameStateV1) (cardId : String) :
    Option (D6RollResult × GameStateV1) :=
  match findCardById cardId g with
  | none => none
  | some card =>
    if validateCardExists cardId g = false then none
    else
      match resolveRoll roll card card.currentColumn g.scrumMasterState with
      | none => none
      | some rollResult =>
        let movementResult :=
          boardServiceMoveCard card card.currentColumn rollResult.destinationColumn rollResult
        if movementResult.success = false then none
        else
          match storeV1MoveCard g cardId card.currentColumn rollResult.destinationColumn with
          | none => none
          | some g2 =>
            let g3 :=
              if 0 < movementResult.tokensUsed then
                { g2 with scrumMasterState :=
                    { g2.scrumMasterState with
                        tokensAvailable :=
                          g.scrumMasterState.tokensAvailable - movementResult.tokensUsed
                        tokensUsed :=
                          g.scrumMasterState.tokensUsed + movementResult.tokensUsed } }
              else g2
            let g4 :=
              if movementResult.technicalDebtActivated then
                { g3 with scrumMasterState :=
                    { g3.scrumMasterState with
                        technicalDebtActive := true
                        technicalDebtExpiresAtTurn := g.currentTurn + 2 } }
              else g3
            some (rollResult, g4)

/-- A sample effort-3 card used at concrete evaluation points. -/
def cardA : Card :=
  { id := "cardA", title := "Sample A", effort := 3, status := SprintBacklog
    createdTurn := 1, revertCount := 0, currentColumn := SprintBacklog
    isTechnicalDebt := false, cycleTime := none }

/-- A sample effort-5 card used at concrete evaluation points. -/
def cardB : Card :=
  { id := "cardB", title := "Sample B", effort := 5, status := Integration
    createdTurn := 1, revertCount := 0, currentColumn := Integration
    isTechnicalDebt := false, cycleTime := none }

/-- A card that has already earned a cycle time of 1 but now sits in
SprintBacklog (a revert after reaching Production leaves cycleTime fixed). -/
def cardDone : Card :=
  { id := "cardDone", title := "Done early", effort := 3, status := SprintBacklog
    createdTurn := 1, revertCount := 1, currentColumn := SprintBacklog
    isTechnicalDebt := false, cycleTime := some 1 }

/-- The default Scrum-Master pool installed at game creation. -/
def defaultPool : ScrumMasterState :=
  { tokensAvailable := 3, tokensTotal := 3, tokensUsed := 0
    technicalDebtActive := false, technicalDebtExpiresAtTurn := 0 }

/-- A pool whose technical-debt flag was set with expiry turn 3: by turn 10
the bonus is expired under the specification's reading. -/
def poolExpired : ScrumMasterState :=
  { tokensAvailable := 3, tokensTotal := 3, tokensUsed := 0
    technicalDebtActive := true, technicalDebtExpiresAtTurn := 3 }

/-- A flat-column game state holding one effort-5 card in Integration. -/
def gInteg : GameStateV1 :=
  { columns := fun c => if c = Integration then [cardB] else []
    currentTurn := 1, currentPhase := Execution, scrumMasterState := defaultPool }

/-- A flat-column game state at turn 1 whose only card carries cycleTime 1
but sits in SprintBacklog, not Production. -/
def gCycled : GameStateV1 :=
  { columns := fun c => if c = SprintBacklog then [cardDone] else []
    currentTurn := 1, currentPhase := Execution, scrumMasterState := defaultPool }

/-- A store session whose Integration column (WIP limit 1) has a full slot
and one queued card. -/
def sFull : StoreSession :=
  storeAddCard (storeAddCard createGame Integration cardA) Integration cardB

/-- Folding effort onto an accumulator equals the accumulator plus the summed
effort map. -/
theorem foldl_effort_eq (cards : List Card) (n : Nat) :
    cards.foldl (fun sum c => sum + c.effort) n = n + (cards.map fun c => c.effort).sum := by
  induction cards generalizing n with
  | nil => simp
  | cons c rest ih => simp [List.foldl_cons, ih, Nat.add_assoc]

/-- The source's effort reduce agrees with the summed effort map. -/
theorem columnEffort_eq_sum (cards : List Card) : columnEffort cards = specOccupiedEffort cards := by
  simpa [columnEffort, specOccupiedEffort] using foldl_effort_eq cards 0

/-- Claim C1: resolving die value 5 always reverts with zero effort credited; the
destination is the previous column when at least one Scrum-Master token is
available and the fixed fallback Implementation when the pool is empty, and
the mitigation-eligible flag is true exactly when a token is available. -/
theorem roll5_technical_impediment (card : Card) (stage : BoardColumn)
    (pool : ScrumMasterState) :
    ∃ r, resolveRoll 5 card stage pool = some r ∧
      r.cardMovement.causesRevert = true ∧
      r.cardMovement.effortApplied = 0 ∧
      r.destinationColumn =
        (if 1 ≤ pool.tokensAvailable then getPreviousColumn stage else Implementation) ∧
      (r.canMitigation = true ↔ 1 ≤ pool.tokensAvailable) ∧
      getPreviousColumn stage =
        (match stage with
         | Funnel => Funnel
         | ProductBacklog => Funnel
         | SprintBacklog => ProductBacklog
         | Implementation => SprintBacklog
         | Integration => Implementation
         | Testing => Integration
         | PreDeployment => Testing
         | Production => PreDeployment) := by
  refine ⟨handleTechnicalImpediment card stage pool, rfl, rfl, rfl, ?_, ?_, by cases stage <;> rfl⟩
  · rcases Nat.eq_zero_or_pos pool.tokensAvailable with h | h
    · simp [handleTechnicalImpediment, h]
    · have h1 : 1 ≤ pool.tokensAvailable := h
      simp [handleTechnicalImpediment, h, h1]
  · rcases Nat.eq_zero_or_pos pool.tokensAvailable with h | h
    · simp [handleTechnicalImpediment, h]
    · have h1 : 1 ≤ pool.tokensAvailable := h
      simp [handleTechnicalImpediment, h, h1]

/-- Claim C2: at a concrete state whose technical-debt bonus expired at turn 3
while the session stands at turn 10, the specification's reading of the
bonus says inactive, yet resolving die value 6 still sends the card to
Implementation, because the source only tests that the expiry turn is
positive (its own TODO comment admits the missing comparison). -/
theorem roll6_expired_debt_bug :
    specTechnicalDebtCurrentlyActive poolExpired 10 = false ∧
    poolExpired.technicalDebtExpiresAtTurn < 10 ∧
    ∃ r, resolveRoll 6 cardA Testing poolExpired = some r ∧
      r.destinationColumn = Implementation ∧
      r.cardMovement.causesRevert = true ∧
      r.cardMovement.effortApplied = 0 ∧
      r.canMitigation = false := by
  exact ⟨by decide, by decide, handleCriticalFailure cardA Testing poolExpired,
    rfl, rfl, rfl, rfl, rfl⟩

/-- Claim C8: resolving die value 2 or 3 never reverts, credits the card's full
effort, and sends the card to the adjacent later stage, staying put exactly
at Production, the last stage. -/
theorem roll23_standard_progress (card : Card) (stage : BoardColumn)
    (pool : ScrumMasterState) :
    (∃ r, resolveRoll 2 card stage pool = some r ∧
      r.cardMovement.causesRevert = false ∧
      r.cardMovement.effortApplied = card.effort ∧
      r.destinationColumn = getNextColumn stage) ∧
    (∃ r, resolveRoll 3 card stage pool = some r ∧
      r.cardMovement.causesRevert = false ∧
      r.cardMovement.effortApplied = card.effort ∧
      r.destinationColumn = getNextColumn stage) ∧
    getNextColumn stage =
      (match stage with
       | Funnel => ProductBacklog
       | ProductBacklog => SprintBacklog
       | SprintBacklog => Implementation
       | Implementation => Integration
       | Integration => Testing
       | Testing => PreDeployment
       | PreDeployment => Production
       | Production => Production) := by
  refine ⟨⟨_, rfl, rfl, rfl, rfl⟩, ⟨_, rfl, rfl, rfl, rfl⟩, ?_⟩
  cases stage <;> rfl

/-- Claim C6: the capacity check always passes on unlimited columns; on a limited
column it passes exactly when the occupied effort (summed effort points of
the cards held, not their count) plus the incoming card's effort stays
within the limit. -/
theorem capacity_check_effort (column : BoardColumn) (card : Card) (g : GameStateV1) :
    (COLUMN_CAPACITIES column = none → checkColumnCapacity column card g = true) ∧
    (∀ cap, COLUMN_CAPACITIES column = some cap →
      (checkColumnCapacity column card g = true ↔
        specOccupiedEffort (g.columns column) + card.effort ≤ cap)) := by
  constructor
  · intro h
    simp [checkColumnCapacity, h]
  · intro cap h
    rw [show checkColumnCapacity column card g =
        (if cap < columnEffort (g.columns column) + card.effort then false else true) by
      simp [checkColumnCapacity, h]]
    rw [columnEffort_eq_sum]
    split <;> simp <;> omega

/-- Claim C6 witness: with one effort-5 card occupying Integration (limit 8), an
incoming effort-3 card passes the capacity check. -/
theorem capacity_check_effort_witness : checkColumnCapacity Integration cardA gInteg = true :=
  ((capacity_check_effort Integration cardA gInteg).2 8 rfl).mpr (by decide)

/-- Claim C7: advancePhase steps exactly one phase forward along the fixed order,
answers not-advanced with the state untouched at Retrospective, and four
successive calls from a fresh game yield Execution, SprintReview,
Retrospective and then not-advanced. -/
theorem advance_phase_strict (s : StoreSession) :
    storeAdvancePhase s =
      (decide (s.currentPhase ≠ Retrospective),
       { s with currentPhase :=
           match s.currentPhase with
           | SprintPlanning => Execution
           | Execution => SprintReview
           | SprintReview => Retrospective
           | Retrospective => Retrospective }) ∧
    ((storeAdvancePhase createGame).2.currentPhase = Execution ∧
     (storeAdvancePhase (storeAdvancePhase createGame).2).2.currentPhase = SprintReview ∧
     (storeAdvancePhase (storeAdvancePhase (storeAdvancePhase createGame).2).2).2.currentPhase =
       Retrospective ∧
     (storeAdvancePhase
       (storeAdvancePhase (storeAdvancePhase (storeAdvancePhase createGame).2).2).2).1 = false ∧
     (storeAdvancePhase
       (storeAdvancePhase (storeAdvancePhase (storeAdvancePhase createGame).2).2).2).2 =
       (storeAdvancePhase (storeAdvancePhase (storeAdvancePhase createGame).2).2).2) := by
  constructor
  · obtain ⟨cols, turn, phase, pool, act⟩ := s
    cases phase <;> rfl
  · exact ⟨rfl, rfl, rfl, rfl, rfl⟩

/-- Claim C9 counterexample: at turn 1 with a single effort-3 card carrying
cycleTime 1 that sits in SprintBacklog, the implementation's velocity entry
for turn 1 is 0, while the turn-1 sum of effort over all cards in the
session whose cycleTime equals 1 is 3: the derivation scans only the
Production column, not all cards. -/
theorem velocity_counterexample :
    calculateVelocityPerTurn gCycled = [0] ∧ specVelocityEntry gCycled 1 = 3 := by
  constructor <;> rfl

/-- Claim C9 amended: the velocity sequence has one entry per turn 1..currentTurn,
and the entry for each turn is the sum of effort over the cards currently in
the Production column whose cycleTime equals that turn (cards elsewhere, and
cards with null cycleTime, contribute nothing). -/
theorem velocity_per_turn_production (g : GameStateV1) :
    (calculateVelocityPerTurn g).length = g.currentTurn ∧
    ∀ i, i < g.currentTurn →
      (calculateVelocityPerTurn g).getD i 0 =
        specOccupiedEffort
          ((g.columns Production).filter fun card => card.cycleTime == some (i + 1)) := by
  constructor
  · simp [calculateVelocityPerTurn]
  · intro i hi
    rw [List.getD_eq_getElem?_getD]
    simp [calculateVelocityPerTurn, List.getElem?_range, hi, columnEffort_eq_sum]

/-- Claim C9 amended witness: the turn-1 entry of the counterexample state equals
the Production-column sum (here 0, since Production is empty). -/
theorem velocity_per_turn_production_witness :
    (calculateVelocityPerTurn gCycled).getD 0 0 =
      specOccupiedEffort
        ((gCycled.columns Production).filter fun card => card.cycleTime == some 1) :=
  (velocity_per_turn_production gCycled).2 0 (by decide)

/-- Claim C5 counterexample: after endGame marks a fresh session inactive, phase
advance, turn advance, Scrum-Master update and card movement all still
report success and mutate the session instead of failing. -/
theorem end_game_counterexample :
    ((storeEndGame createGame).2.isActive = false) ∧
    ((storeAdvancePhase (storeEndGame createGame).2).1 = true ∧
     (storeAdvancePhase (storeEndGame createGame).2).2.currentPhase = Execution) ∧
    ((storeAdvanceTurn (storeEndGame createGame).2).1 = true ∧
     (storeAdvanceTurn (storeEndGame createGame).2).2.currentTurn = 2) ∧
    ((storeUpdateScrumMasterState (storeEndGame createGame).2 poolExpired).1 = true ∧
     (storeUpdateScrumMasterState (storeEndGame createGame).2
        poolExpired).2.scrumMasterState = poolExpired) ∧
    ((storeMoveCard (storeEndGame (storeAddCard createGame SprintBacklog cardA)).2
        "cardA" SprintBacklog Implementation).1 = true ∧
     ((storeMoveCard (storeEndGame (storeAddCard createGame SprintBacklog cardA)).2
        "cardA" SprintBacklog Implementation).2.columns Implementation).slots.length = 1) := by
  exact ⟨rfl, ⟨rfl, rfl⟩, ⟨rfl, rfl⟩, ⟨rfl, rfl⟩, ⟨rfl, rfl⟩⟩

/-- Claim C5 amended: endGame only flips the session's active flag; the mutating
store operations never consult that flag, so on an ended session they answer
and mutate exactly as they would on the live one. -/
theorem end_game_no_guard (s : StoreSession) (cardId : String)
    (fromColumn toColumn : BoardColumn) (merged : ScrumMasterState) :
    (storeEndGame s).2.isActive = false ∧
    (storeAdvancePhase (storeEndGame s).2).1 = (storeAdvancePhase s).1 ∧
    (storeAdvancePhase (storeEndGame s).2).2.currentPhase =
      (storeAdvancePhase s).2.currentPhase ∧
    (storeMoveCard (storeEndGame s).2 cardId fromColumn toColumn).1 =
      (storeMoveCard s cardId fromColumn toColumn).1 ∧
    (storeMoveCard (storeEndGame s).2 cardId fromColumn toColumn).2.columns =
      (storeMoveCard s cardId fromColumn toColumn).2.columns ∧
    (storeAdvanceTurn (storeEndGame s).2).1 = true ∧
    (storeAdvanceTurn (storeEndGame s).2).2.currentTurn = s.currentTurn + 1 ∧
    (storeUpdateScrumMasterState (storeEndGame s).2 merged).1 = true ∧
    (storeUpdateScrumMasterState (storeEndGame s).2 merged).2.scrumMasterState = merged := by
  obtain ⟨cols, turn, phase, pool, act⟩ := s
  refine ⟨rfl, ?_, ?_, ?_, ?_, rfl, rfl, rfl, rfl⟩
  · cases phase <;> rfl
  · cases phase <;> rfl
  · cases h1 : extractFirst (cols fromColumn).slots cardId with
    | some p =>
      obtain ⟨c0, rest0⟩ := p
      simp [storeMoveCard, storeEndGame, h1]
    | none =>
      cases h2 : extractFirst (cols fromColumn).queue cardId with
      | some p =>
        obtain ⟨c0, rest0⟩ := p
        simp [storeMoveCard, storeEndGame, h1, h2]
      | none => simp [storeMoveCard, storeEndGame, h1, h2]
  · cases h1 : extractFirst (cols fromColumn).slots cardId with
    | some p =>
      obtain ⟨c0, rest0⟩ := p
      simp [storeMoveCard, storeEndGame, h1]
    | none =>
      cases h2 : extractFirst (cols fromColumn).queue cardId with
      | some p =>
        obtain ⟨c0, rest0⟩ := p
        simp [storeMoveCard, storeEndGame, h1, h2]
      | none => simp [storeMoveCard, storeEndGame, h1, h2]

/-- Invariant: every column's active slots stay within its WIP limit. -/
def InvColumns (cols : BoardColumn → ColumnState) : Prop :=
  ∀ c, (cols c).slots.length ≤ (cols c).wipLimit

/-- A successful splice shortens the list by exactly one. -/
theorem extractFirst_length {cards : List Card} {cardId : String} {card : Card}
    {rest : List Card} (h : extractFirst cards cardId = some (card, rest)) :
    rest.length + 1 = cards.length := by
  induction cards generalizing card rest with
  | nil => simp [extractFirst] at h
  | cons c cs ih =>
    rw [extractFirst] at h
    by_cases hc : (c.id == cardId) = true
    · simp [hc] at h
      obtain ⟨-, h2⟩ := h
      simp [← h2]
    · simp [hc] at h
      cases hrec : extractFirst cs cardId with
      | none => rw [hrec] at h; cases h
      | some p =>
        obtain ⟨f, rem⟩ := p
        rw [hrec] at h
        simp at h
        obtain ⟨-, h2⟩ := h
        have hlen := ih hrec
        simp [← h2]
        omega

/-- Updating one column preserves the WIP invariant when the new column
state satisfies it. -/
theorem invColumns_update {cols : BoardColumn → ColumnState} {c : BoardColumn}
    {cs2 : ColumnState} (hInv : InvColumns cols)
    (hle : cs2.slots.length ≤ cs2.wipLimit) :
    InvColumns (Function.update cols c cs2) := by
  intro x
  rcases eq_or_ne x c with rfl | hx
  · simpa using hle
  · simpa [Function.update_apply, hx] using hInv x

/-- Placement into a destination column preserves the WIP invariant: a card
enters slots only below the limit, otherwise it joins the queue. -/
theorem inv_placeCard {cols : BoardColumn → ColumnState} {t : BoardColumn} {card : Card}
    (h : InvColumns cols) : InvColumns (placeCard cols t card) := by
  by_cases hlt : (cols t).slots.length < (cols t).wipLimit
  · rw [show placeCard cols t card =
        Function.update cols t { cols t with slots := (cols t).slots ++ [card] } from by
      simp [placeCard, hlt]]
    exact invColumns_update h (by simp; omega)
  · rw [show placeCard cols t card =
        Function.update cols t { cols t with queue := (cols t).queue ++ [card] } from by
      simp [placeCard, hlt]]
    exact invColumns_update h (h t)

/-- addCard preserves the WIP invariant. -/
theorem inv_addCard {s : StoreSession} {column : BoardColumn} {card : Card}
    (h : InvColumns s.columns) : InvColumns (storeAddCard s column card).columns := by
  by_cases hlt : (s.columns column).slots.length < (s.columns column).wipLimit
  · rw [show (storeAddCard s column card).columns =
        Function.update s.columns column
          { s.columns column with slots := (s.columns column).slots ++ [card] } from by
      simp [storeAddCard, hlt]]
    exact invColumns_update h (by simp; omega)
  · rw [show (storeAddCard s column card).columns =
        Function.update s.columns column
          { s.columns column with queue := (s.columns column).queue ++ [card] } from by
      simp [storeAddCard, hlt]]
    exact invColumns_update h (h column)

/-- moveCard preserves the WIP invariant: the source splice shortens a list
and the destination placement respects the limit. -/
theorem inv_moveCard {s : StoreSession} {cardId : String}
    {fromColumn toColumn : BoardColumn} (h : InvColumns s.columns) :
    InvColumns (storeMoveCard s cardId fromColumn toColumn).2.columns := by
  unfold storeMoveCard
  cases h1 : extractFirst (s.columns fromColumn).slots cardId with
  | some p =>
    obtain ⟨c0, rest0⟩ := p
    simp only [h1]
    apply inv_placeCard
    apply invColumns_update h
    have hl := extractFirst_length h1
    have := h fromColumn
    simp
    omega
  | none =>
    simp only [h1]
    cases h2 : extractFirst (s.columns fromColumn).queue cardId with
    | some p =>
      obtain ⟨c0, rest0⟩ := p
      simp only [h2]
      apply inv_placeCard
      apply invColumns_update h
      simpa using h fromColumn
    | none =>
      simp only [h2]
      exact h

/-- The removal scan preserves the WIP invariant: it only shortens a slots
list or rewrites a queue. -/
theorem inv_removeScan {cardId : String} {cols cols2 : BoardColumn → ColumnState}
    (l : List BoardColumn) (h : InvColumns cols)
    (hs : removeCardScan cols cardId l = some cols2) : InvColumns cols2 := by
  induction l with
  | nil => simp [removeCardScan] at hs
  | cons c cs ih =>
    rw [removeCardScan] at hs
    cases h1 : extractFirst (cols c).slots cardId with
    | some p =>
      obtain ⟨c0, rest0⟩ := p
      rw [h1] at hs
      simp at hs
      rw [← hs]
      apply invColumns_update h
      have hl := extractFirst_length h1
      have := h c
      simp
      omega
    | none =>
      rw [h1] at hs
      cases h2 : extractFirst (cols c).queue cardId with
      | some p =>
        obtain ⟨c0, rest0⟩ := p
        rw [h2] at hs
        simp at hs
        rw [← hs]
        apply invColumns_update h
        simpa using h c
      | none =>
        rw [h2] at hs
        exact ih hs

/-- removeCard preserves the WIP invariant. -/
theorem inv_removeCard {s : StoreSession} {cardId : String}
    (h : InvColumns s.columns) : InvColumns (storeRemoveCard s cardId).2.columns := by
  unfold storeRemoveCard
  cases hs : removeCardScan s.columns cardId columnsList with
  | some cols2 =>
    simp only [hs]
    exact inv_removeScan columnsList h hs
  | none =>
    simp only [hs]
    exact h

/-- Any sequence of store mutations preserves the WIP invariant. -/
theorem inv_runOps (ops : List StoreOp) (s : StoreSession) (h : InvColumns s.columns) :
    InvColumns (runOps s ops).columns := by
  induction ops generalizing s with
  | nil => exact h
  | cons op rest ih =>
    rw [runOps, List.foldl_cons]
    refine ih (applyOp s op) ?_
    cases op with
    | add column card => exact inv_addCard h
    | move cardId fromColumn toColumn => exact inv_moveCard h
    | remove cardId => exact inv_removeCard h

/-- Claim C3: starting from a fresh game, after any sequence of addCard, moveCard
and removeCard store operations, every stage's slots length stays within its
WIP limit; overflow placements land in the queue, never in slots. -/
theorem wip_limit_invariant (ops : List StoreOp) (stage : BoardColumn) :
    ((runOps createGame ops).columns stage).slots.length ≤
      ((runOps createGame ops).columns stage).wipLimit :=
  inv_runOps ops createGame (fun c => by simp [createGame]) stage

/-- A column state holds a card id somewhere in its slots or queue. -/
def cardInColumnState (cs : ColumnState) (cardId : String) : Bool :=
  (cs.slots.any fun c => c.id == cardId) || (cs.queue.any fun c => c.id == cardId)

/-- The splice misses lists holding no card with the id. -/
theorem extractFirst_eq_none {cards : List Card} {cardId : String}
    (h : ∀ c ∈ cards, (c.id == cardId) = false) : extractFirst cards cardId = none := by
  induction cards with
  | nil => rfl
  | cons c cs ih =>
    rw [extractFirst, h c (by simp)]
    simp [ih fun x hx => h x (by simp [hx])]

/-- When every column before the target misses the card and the target's
slots hold it, the removal scan removes it from the target's slots and
touches nothing else. -/
theorem removeCardScan_at {cols : BoardColumn → ColumnState} {cardId : String}
    {stage : BoardColumn} {card : Card} {rest : List Card}
    (l : List BoardColumn) (hmem : stage ∈ l)
    (hin : extractFirst (cols stage).slots cardId = some (card, rest))
    (hothers : ∀ c, c ≠ stage → cardInColumnState (cols c) cardId = false) :
    removeCardScan cols cardId l =
      some (Function.update cols stage { cols stage with slots := rest }) := by
  induction l with
  | nil => cases hmem
  | cons c0 cs ih =>
    rw [removeCardScan]
    rcases eq_or_ne c0 stage with rfl | hne
    · simp [hin]
    · have hno := hothers c0 hne
      simp only [cardInColumnState, Bool.or_eq_false_iff] at hno
      obtain ⟨hs, hq⟩ := hno
      have hslots : extractFirst (cols c0).slots cardId = none :=
        extractFirst_eq_none fun c hc => by simpa using List.any_eq_false.mp hs c hc
      have hqueue : extractFirst (cols c0).queue cardId = none :=
        extractFirst_eq_none fun c hc => by simpa using List.any_eq_false.mp hq c hc
      simp only [hslots, hqueue]
      refine ih ?_
      rcases List.mem_cons.mp hmem with h | h
      · exact absurd h.symm hne
      · exact h

/-- Claim C4 counterexample: in a session whose Integration column (WIP limit 1)
has a full slot and a queued card, removing the slotted card leaves the
slots empty and the queue still holding one card: no promotion of the queue
head into the freed slot happens. -/
theorem remove_no_promotion_counterexample :
    ((sFull.columns Integration).slots.length = 1 ∧
     (sFull.columns Integration).queue.length = 1) ∧
    (storeRemoveCard sFull "cardA").1 = true ∧
    ((storeRemoveCard sFull "cardA").2.columns Integration).slots.length = 0 ∧
    ((storeRemoveCard sFull "cardA").2.columns Integration).queue.length = 1 := by
  exact ⟨⟨rfl, rfl⟩, rfl, rfl, rfl⟩

/-- Claim C4 amended: removing a card held in a stage's slots (the card sitting in
no other column) succeeds, shortens that stage's slots by exactly one, and
leaves the stage's queue untouched — the store performs no queue promotion
on removal. -/
theorem remove_from_slots_no_promotion (s : StoreSession) (stage : BoardColumn)
    (cardId : String) (card : Card) (rest : List Card)
    (hin : extractFirst (s.columns stage).slots cardId = some (card, rest))
    (hothers : ∀ c, c ≠ stage → cardInColumnState (s.columns c) cardId = false) :
    (storeRemoveCard s cardId).1 = true ∧
    ((storeRemoveCard s cardId).2.columns stage).slots = rest ∧
    ((storeRemoveCard s cardId).2.columns stage).slots.length + 1 =
      (s.columns stage).slots.length ∧
    ((storeRemoveCard s cardId).2.columns stage).queue = (s.columns stage).queue := by
  have hscan := removeCardScan_at columnsList
    (by cases stage <;> decide) hin hothers
  have hlen := extractFirst_length hin
  unfold storeRemoveCard
  rw [hscan]
  refine ⟨rfl, by simp, by simp; omega, by simp⟩

/-- Claim C4 amended witness: the concrete full-Integration session instantiates
the no-promotion law. -/
theorem remove_from_slots_no_promotion_witness :
    (storeRemoveCard sFull "cardA").1 = true ∧
    ((storeRemoveCard sFull "cardA").2.columns Integration).slots = [] ∧
    ((storeRemoveCard sFull "cardA").2.columns Integration).slots.length + 1 =
      (sFull.columns Integration).slots.length ∧
    ((storeRemoveCard sFull "cardA").2.columns Integration).queue =
      (sFull.columns Integration).queue :=
  remove_from_slots_no_promotion sFull Integration "cardA" cardA []
    (by decide) (by decide)

/-- The store-level card move never touches the Scrum-Master pool. -/
theorem storeV1MoveCard_pool {g : GameStateV1} {cardId : String}
    {fromColumn toColumn : BoardColumn} {g2 : GameStateV1}
    (h : storeV1MoveCard g cardId fromColumn toColumn = some g2) :
    g2.scrumMasterState = g.scrumMasterState := by
  unfold storeV1MoveCard at h
  cases he : extractFirst (g.columns fromColumn) cardId with
  | none => rw [he] at h; cases h
  | some p =>
    obtain ⟨c0, rest0⟩ := p
    rw [he] at h
    simp at h
    rw [← h]

/-- Claim C10: every successful roll-for-card operation leaves the Scrum-Master
pool exactly as it was: no token is spent even on a mitigation-eligible
outcome, and the technical-debt flag and expiry turn stay untouched, because
the board-service movement result always reports zero tokens used and no
debt activation. -/
theorem roll_preserves_pool (roll : Nat) (g : GameStateV1) (cardId : String)
    (r : D6RollResult) (g2 : GameStateV1)
    (h : gameServiceRollD6 roll g cardId = some (r, g2)) :
    g2.scrumMasterState = g.scrumMasterState := by
  unfold gameServiceRollD6 at h
  cases hf : findCardById cardId g with
  | none => rw [hf] at h; cases h
  | some card =>
    rw [hf] at h
    dsimp only at h
    by_cases hv : validateCardExists cardId g = false
    · rw [if_pos hv] at h; cases h
    · rw [if_neg hv] at h
      cases hr : resolveRoll roll card card.currentColumn g.scrumMasterState with
      | none => rw [hr] at h; cases h
      | some rollResult =>
        rw [hr] at h
        dsimp only [boardServiceMoveCard] at h
        cases hm : storeV1MoveCard g cardId card.currentColumn
            rollResult.destinationColumn with
        | none => rw [hm] at h; simp at h
        | some gMoved =>
          rw [hm] at h
          simp at h
          rw [← h.2]
          exact storeV1MoveCard_pool hm

/-- Claim C10 witness: a concrete die-2 roll on the sample session succeeds and
leaves its Scrum-Master pool unchanged. -/
theorem roll_preserves_pool_witness :
    ((gameServiceRollD6 2 gCycled "cardDone").map fun p => p.2.scrumMasterState) =
      some gCycled.scrumMasterState := by
  have hs : (gameServiceRollD6 2 gCycled "cardDone").isSome = true := by decide
  obtain ⟨p, hp⟩ := Option.isSome_iff_exists.mp hs
  rw [hp]
  have := roll_preserves_pool 2 gCycled "cardDone" p.1 p.2 (by rw [hp])
  simp [this]

end ScrumGame
